import Mathlib

/-!
# Verification of the raytracer core (raytracer.cpp)

A shallow embedding, over the real numbers, of the geometric and shading
pipeline of `raytracer.cpp`: vector algebra (`Vec3d`), color algebra
(`Color`), rays, the analytic ray-sphere intersection (`Sphere.intersect`,
with its in/out `dist` parameter modelled as an explicit input and output),
sphere normals, the shadow-occlusion loop, the nearest-hit search and the
per-pixel shading pipeline of `main`.

The C++ code works on `double`; we model the arithmetic over `ℝ`, keeping
the exact control flow (branch structure, comparison directions, the
threading of the mutable `tmpdist` variable through every `intersect`
call).
-/

namespace Raytracer

/-- 3D vector in cartesian space (struct `Vec3d`). -/
structure Vec3d where
  x : ℝ
  y : ℝ
  z : ℝ

noncomputable instance : Sub Vec3d := ⟨fun a b => ⟨a.x - b.x, a.y - b.y, a.z - b.z⟩⟩

noncomputable instance : Add Vec3d := ⟨fun a b => ⟨a.x + b.x, a.y + b.y, a.z + b.z⟩⟩

noncomputable instance : HDiv Vec3d ℝ Vec3d := ⟨fun a v => ⟨a.x / v, a.y / v, a.z / v⟩⟩

noncomputable instance : HMul Vec3d ℝ Vec3d := ⟨fun a v => ⟨a.x * v, a.y * v, a.z * v⟩⟩

@[simp] theorem Vec3d.sub_def (a b : Vec3d) : a - b = ⟨a.x - b.x, a.y - b.y, a.z - b.z⟩ := rfl

@[simp] theorem Vec3d.add_def (a b : Vec3d) : a + b = ⟨a.x + b.x, a.y + b.y, a.z + b.z⟩ := rfl

@[simp] theorem Vec3d.div_def (a : Vec3d) (v : ℝ) : a / v = ⟨a.x / v, a.y / v, a.z / v⟩ := rfl

@[simp] theorem Vec3d.mul_def (a : Vec3d) (v : ℝ) : a * v = ⟨a.x * v, a.y * v, a.z * v⟩ := rfl

/-- `Vec3d::dotProduct`. -/
def Vec3d.dotProduct (a b : Vec3d) : ℝ := a.x * b.x + a.y * b.y + a.z * b.z

/-- `Vec3d::length`: `sqrt(dotProduct(*this))`. -/
noncomputable def Vec3d.length (a : Vec3d) : ℝ := Real.sqrt (a.dotProduct a)

/-- `Vec3d::normalize`: divides the vector by its length (componentwise),
with no guard against a zero length. -/
noncomputable def Vec3d.normalize (a : Vec3d) : Vec3d := a / a.length

/-- Line used for backward raytracing (struct `Ray`). -/
structure Ray where
  origin : Vec3d
  direction : Vec3d

/-- `Ray::getPoint`: `origin + direction*dist`. -/
noncomputable def Ray.getPoint (r : Ray) (dist : ℝ) : Vec3d := r.origin + r.direction * dist

/-- The epsilon constant of `Sphere::intersect` (`constexpr double eps = 0.00001`). -/
def eps : ℝ := 0.00001

/-- Sphere primitive (struct `Sphere`). -/
structure Sphere where
  center : Vec3d
  radius : ℝ

/-- Local `val1` of `Sphere::intersect`: `(origin - center).dotProduct(direction)`. -/
noncomputable def Sphere.val1 (s : Sphere) (ray : Ray) : ℝ :=
  (ray.origin - s.center).dotProduct ray.direction

/-- Local `val2` of `Sphere::intersect`: `(origin - center).length()`. -/
noncomputable def Sphere.val2 (s : Sphere) (ray : Ray) : ℝ :=
  (ray.origin - s.center).length

/-- Local `val3` (the discriminant) of `Sphere::intersect`:
`val1*val1 - val2*val2 + radius*radius`. -/
noncomputable def Sphere.val3 (s : Sphere) (ray : Ray) : ℝ :=
  s.val1 ray * s.val1 ray - s.val2 ray * s.val2 ray + s.radius * s.radius

/-- Local `dist1` of `Sphere::intersect`: `-val1 + sqrt(val3)`. -/
noncomputable def Sphere.dist1 (s : Sphere) (ray : Ray) : ℝ :=
  -(s.val1 ray) + Real.sqrt (s.val3 ray)

/-- Local `dist2` of `Sphere::intersect`: `-val1 - sqrt(val3)`. -/
noncomputable def Sphere.dist2 (s : Sphere) (ray : Ray) : ℝ :=
  -(s.val1 ray) - Real.sqrt (s.val3 ray)

/-- The value of the in/out parameter `dist` after the selection `if`-chain of
`Sphere::intersect` (lines 150-154): the chain assigns `max(dist1,dist2)` when
some root is negative, `min(dist1,dist2)` when both are positive, and otherwise
leaves the caller's value `dist` untouched. -/
noncomputable def Sphere.distOut (s : Sphere) (ray : Ray) (dist : ℝ) : ℝ :=
  if s.dist1 ray < 0 ∨ s.dist2 ray < 0 then max (s.dist1 ray) (s.dist2 ray)
  else if s.dist1 ray > 0 ∧ s.dist2 ray > 0 then min (s.dist1 ray) (s.dist2 ray)
  else dist

/-- `Sphere::intersect(ray, dist)`. The C++ signature mutates `dist` in place
and returns a `bool`; we model it as taking the caller's current `dist` value
and returning the pair (returned bool, `dist` value after the call). -/
noncomputable def Sphere.intersect (s : Sphere) (ray : Ray) (dist : ℝ) : Bool × ℝ :=
  if s.val3 ray < 0 then (false, dist)
  else (decide (s.distOut ray dist > eps), s.distOut ray dist)

/-- `Sphere::getNormal(P)`: `(P - center) / radius`. -/
noncomputable def Sphere.getNormal (s : Sphere) (P : Vec3d) : Vec3d :=
  (P - s.center) / s.radius

/-- The free function `clamp(min, max, val)`. -/
noncomputable def clamp (min max val : ℝ) : ℝ :=
  let val1 := if val < min then min else val
  if val1 > max then max else val1

/-- Pixel color in rgb format (struct `Color`). -/
structure Color where
  r : ℝ
  g : ℝ
  b : ℝ

noncomputable instance : Add Color := ⟨fun a c => ⟨a.r + c.r, a.g + c.g, a.b + c.b⟩⟩

noncomputable instance : Mul Color := ⟨fun a c => ⟨a.r * c.r, a.g * c.g, a.b * c.b⟩⟩

noncomputable instance : HMul Color ℝ Color := ⟨fun a d => ⟨a.r * d, a.g * d, a.b * d⟩⟩

@[simp] theorem Color.add_color_def (a c : Color) : a + c = ⟨a.r + c.r, a.g + c.g, a.b + c.b⟩ := rfl

@[simp] theorem Color.mul_color_def (a c : Color) : a * c = ⟨a.r * c.r, a.g * c.g, a.b * c.b⟩ := rfl

@[simp] theorem Color.smul_def (a : Color) (d : ℝ) : a * d = ⟨a.r * d, a.g * d, a.b * d⟩ := rfl

/-- `Color::clamp(min, max)`: componentwise clamping. -/
noncomputable def Color.clamp (c : Color) (min max : ℝ) : Color :=
  ⟨Raytracer.clamp min max c.r, Raytracer.clamp min max c.g, Raytracer.clamp min max c.b⟩

/-- `Color::white()`. -/
def Color.white : Color := ⟨1, 1, 1⟩

/-- `Color::black()`. -/
def Color.black : Color := ⟨0, 0, 0⟩

/-- `Color::red()`. -/
def Color.red : Color := ⟨1, 0, 0⟩

/-- Point light (struct `Light`). -/
structure Light where
  pos : Vec3d
  color : Color

/-- The shadow-occlusion loop of `main` (lines 390-395): walk the object list,
calling `intersect` on the shadow ray with the current `tmpdist`; the first
object whose `intersect` returns true marks the light occluded (`break`).
Returns (`inShadow`, final `tmpdist`). -/
noncomputable def anyHit (r : Ray) : List Sphere → ℝ → Bool × ℝ
  | [], tmpdist => (false, tmpdist)
  | o :: os, tmpdist =>
    let res := o.intersect r tmpdist
    if res.1 = true then (true, res.2) else anyHit r os res.2

/-- Lines 383-395 of `main`: the light vector is `normalize(l.pos - pintersect)`,
the shadow ray starts at `pintersect` in that direction, and the object list is
scanned for any hit. -/
noncomputable def inShadowCheck (objects : List Sphere) (pintersect lpos : Vec3d)
    (tmpdist : ℝ) : Bool × ℝ :=
  anyHit ⟨pintersect, (lpos - pintersect).normalize⟩ objects tmpdist

/-- The per-light shading loop of `main` (lines 382-402): for each light, build
the normalized light vector, run the shadow check; if occluded, skip the light
(`continue`); otherwise accumulate `scolor * l.color * dot(n, lv)` into the
running pixel color. `tmpdist` threads through every `intersect` call.
Returns (final pixel color, final `tmpdist`). -/
noncomputable def shadeLights (objects : List Sphere) (scolor : Color)
    (pintersect n : Vec3d) : List Light → Color → ℝ → Color × ℝ
  | [], px, tmpdist => (px, tmpdist)
  | l :: ls, px, tmpdist =>
    let lv := (l.pos - pintersect).normalize
    let sh := anyHit ⟨pintersect, lv⟩ objects tmpdist
    if sh.1 = true then shadeLights objects scolor pintersect n ls px sh.2
    else shadeLights objects scolor pintersect n ls
      (px + scolor * l.color * (n.dotProduct lv)) sh.2

/-- `std::numeric_limits<double>::max()`, the initial value of `dist` in the
nearest-hit loop of `main`. -/
noncomputable def DBL_MAX : ℝ := 1.7976931348623157e308

/-- The nearest-hit loop of `main` (lines 369-376): for each object, call
`intersect(ray, tmpdist)`; on a hit with `tmpdist < dist`, record the object
and the new best distance. `tmpdist` keeps its value across iterations.
Returns (`curo`, `dist`, final `tmpdist`). -/
noncomputable def nearestHit (r : Ray) : List Sphere → Option Sphere → ℝ → ℝ →
    Option Sphere × ℝ × ℝ
  | [], curo, dist, tmpdist => (curo, dist, tmpdist)
  | o :: os, curo, dist, tmpdist =>
    let res := o.intersect r tmpdist
    if res.1 = true ∧ res.2 < dist then nearestHit r os (some o) res.2 res.2
    else nearestHit r os curo dist res.2

/-- The per-pixel body of `main` (lines 362-413): nearest-hit search starting
from `dist = DBL_MAX`; on a hit, shade all lights starting from the default
(black) pixel color, clamp to [0,1], add the ambient term `scolor * 0.1`,
clamp again; with no hit, the pixel is the background color.
Returns (pixel color, final `tmpdist`). -/
noncomputable def renderPixel (objects : List Sphere) (lights : List Light)
    (background scolor : Color) (ray : Ray) (tmpdist0 : ℝ) : Color × ℝ :=
  match nearestHit ray objects none DBL_MAX tmpdist0 with
  | (none, _, tmpdist) => (background, tmpdist)
  | (some o, dist, tmpdist) =>
    let pintersect := ray.getPoint dist
    let n := o.getNormal pintersect
    let sl := shadeLights objects scolor pintersect n lights Color.black tmpdist
    (((sl.1.clamp 0 1) + scolor * (0.1 : ℝ)).clamp 0 1, sl.2)

/-- The selection policy of spec §4.4 as worded there, for comparison with the
code: `max` of the roots when some root is negative, otherwise the `min` of the
two (positive) roots. On the spec's own "mixed sign" gap this picks `max`. -/
noncomputable def Sphere.specSelectedRoot (s : Sphere) (ray : Ray) : ℝ :=
  if s.dist1 ray < 0 ∨ s.dist2 ray < 0 then max (s.dist1 ray) (s.dist2 ray)
  else min (s.dist1 ray) (s.dist2 ray)

/-! ## Basic lemmas about the embedded operations -/

theorem Vec3d.dotProduct_self_nonneg (v : Vec3d) : 0 ≤ v.dotProduct v := by
  unfold Vec3d.dotProduct
  nlinarith [sq_nonneg v.x, sq_nonneg v.y, sq_nonneg v.z]

theorem sqrt_eq_of_mul_self (a b : ℝ) (hb : 0 ≤ b) (h : b * b = a) : Real.sqrt a = b := by
  rw [← h]
  exact Real.sqrt_mul_self hb

theorem Sphere.val2_mul_self (s : Sphere) (ray : Ray) :
    s.val2 ray * s.val2 ray = (ray.origin - s.center).dotProduct (ray.origin - s.center) := by
  unfold Sphere.val2 Vec3d.length
  exact Real.mul_self_sqrt (Vec3d.dotProduct_self_nonneg _)

/-- `val3` with `val2*val2` rewritten to a square-root-free expression. -/
theorem Sphere.val3_eq (s : Sphere) (ray : Ray) :
    s.val3 ray = s.val1 ray * s.val1 ray
      - (ray.origin - s.center).dotProduct (ray.origin - s.center)
      + s.radius * s.radius := by
  unfold Sphere.val3
  rw [Sphere.val2_mul_self]

theorem Sphere.dist2_le_dist1 (s : Sphere) (ray : Ray) : s.dist2 ray ≤ s.dist1 ray := by
  unfold Sphere.dist1 Sphere.dist2
  have h := Real.sqrt_nonneg (s.val3 ray)
  linarith

/-- `Sphere::intersect` on a negative discriminant: early `return false`,
`dist` untouched. -/
theorem Sphere.intersect_of_val3_neg (s : Sphere) (ray : Ray) (d : ℝ)
    (h : s.val3 ray < 0) : s.intersect ray d = (false, d) := by
  unfold Sphere.intersect
  rw [if_pos h]

/-- `Sphere::intersect` on a nonnegative discriminant: returns the epsilon
test on the selected distance, and writes that distance back. -/
theorem Sphere.intersect_of_val3_nonneg (s : Sphere) (ray : Ray) (d : ℝ)
    (h : 0 ≤ s.val3 ray) :
    s.intersect ray d = (decide (s.distOut ray d > eps), s.distOut ray d) := by
  unfold Sphere.intersect
  rw [if_neg (not_lt.mpr h)]

/-- First branch of the selection chain: some root negative picks the max. -/
theorem Sphere.distOut_of_neg_root (s : Sphere) (ray : Ray) (d : ℝ)
    (h : s.dist1 ray < 0 ∨ s.dist2 ray < 0) :
    s.distOut ray d = max (s.dist1 ray) (s.dist2 ray) := by
  unfold Sphere.distOut
  rw [if_pos h]

/-- Second branch of the selection chain: both roots positive picks the min. -/
theorem Sphere.distOut_of_pos_roots (s : Sphere) (ray : Ray) (d : ℝ)
    (h1 : 0 < s.dist1 ray) (h2 : 0 < s.dist2 ray) :
    s.distOut ray d = min (s.dist1 ray) (s.dist2 ray) := by
  have hnot : ¬ (s.dist1 ray < 0 ∨ s.dist2 ray < 0) := by
    push_neg
    exact ⟨h1.le, h2.le⟩
  unfold Sphere.distOut
  rw [if_neg hnot, if_pos ⟨h1, h2⟩]

/-- Fall-through of the selection chain: it happens exactly when
`dist2 = 0` (then `dist1 ≥ dist2 = 0` and neither branch condition holds),
and `dist` keeps the caller's value. -/
theorem Sphere.distOut_of_dist2_zero (s : Sphere) (ray : Ray) (d : ℝ)
    (h2 : s.dist2 ray = 0) : s.distOut ray d = d := by
  have h21 := s.dist2_le_dist1 ray
  have hnot1 : ¬ (s.dist1 ray < 0 ∨ s.dist2 ray < 0) := by
    push_neg
    constructor
    · linarith
    · linarith
  have hnot2 : ¬ (s.dist1 ray > 0 ∧ s.dist2 ray > 0) := by
    rintro ⟨-, hb⟩
    rw [h2] at hb
    exact lt_irrefl 0 hb
  unfold Sphere.distOut
  rw [if_neg hnot1, if_neg hnot2]

/-! ## Claim theorems -/

/-- C3: when both intersection roots are strictly negative (sphere entirely
behind the ray), `Sphere::intersect` selects the larger (less-negative) root
`max(dist1,dist2) = dist1` as the distance, that distance fails the epsilon
test, and the function returns false. -/
theorem c3_both_roots_negative (s : Sphere) (ray : Ray) (d0 : ℝ)
    (h3 : 0 ≤ s.val3 ray) (h1 : s.dist1 ray < 0) (h2 : s.dist2 ray < 0) :
    s.intersect ray d0 = (false, max (s.dist1 ray) (s.dist2 ray)) ∧
    max (s.dist1 ray) (s.dist2 ray) = s.dist1 ray := by
  have hd : s.distOut ray d0 = max (s.dist1 ray) (s.dist2 ray) :=
    s.distOut_of_neg_root ray d0 (Or.inl h1)
  have hmax : max (s.dist1 ray) (s.dist2 ray) = s.dist1 ray :=
    max_eq_left (s.dist2_le_dist1 ray)
  have heps : (0:ℝ) ≤ eps := by norm_num [eps]
  refine ⟨?_, hmax⟩
  rw [s.intersect_of_val3_nonneg ray d0 h3, hd, hmax]
  rw [decide_eq_false (not_lt.mpr (h1.le.trans heps))]

/-- Witness for C3: the sphere of radius 1 at (0,0,3) lies entirely behind
the ray from the origin toward (0,0,-1); the roots are -2 and -4, the call
returns false and writes back max(-2,-4) = -2. -/
theorem c3_witness :
    (Sphere.mk ⟨0,0,3⟩ 1).intersect ⟨⟨0,0,0⟩, ⟨0,0,-1⟩⟩ 7 = (false, -2) := by
  have hv1 : (Sphere.mk ⟨0,0,3⟩ 1).val1 ⟨⟨0,0,0⟩, ⟨0,0,-1⟩⟩ = 3 := by
    norm_num [Sphere.val1, Vec3d.dotProduct]
  have hv3 : (Sphere.mk ⟨0,0,3⟩ 1).val3 ⟨⟨0,0,0⟩, ⟨0,0,-1⟩⟩ = 1 := by
    rw [Sphere.val3_eq, hv1]
    norm_num [Vec3d.dotProduct]
  have hd1 : (Sphere.mk ⟨0,0,3⟩ 1).dist1 ⟨⟨0,0,0⟩, ⟨0,0,-1⟩⟩ = -2 := by
    unfold Sphere.dist1
    rw [hv1, hv3, Real.sqrt_one]
    norm_num
  have hd2 : (Sphere.mk ⟨0,0,3⟩ 1).dist2 ⟨⟨0,0,0⟩, ⟨0,0,-1⟩⟩ = -4 := by
    unfold Sphere.dist2
    rw [hv1, hv3, Real.sqrt_one]
    norm_num
  have h := c3_both_roots_negative ⟨⟨0,0,3⟩, 1⟩ ⟨⟨0,0,0⟩, ⟨0,0,-1⟩⟩ 7
    (by rw [hv3]; norm_num) (by rw [hd1]; norm_num) (by rw [hd2]; norm_num)
  rw [h.1, h.2, hd1]

/-- C9: with a nonnegative discriminant, (a) mixed-sign roots
(`dist2 < 0 < dist1`, ray origin inside the sphere) make the branch
`dist1 < 0 || dist2 < 0` fire, assigning the positive exit root
`dist1 = max(dist1,dist2)` and returning true iff it exceeds epsilon;
(b) the selection chain falls through (leaving the caller's `dist`) exactly
when no root is strictly negative and not both are strictly positive, which
happens precisely when `dist2 = 0`; and (c) in that case the call returns the
epsilon test of the caller's stale value. -/
theorem c9_mixed_sign_selection (s : Sphere) (ray : Ray) (d0 : ℝ)
    (h3 : 0 ≤ s.val3 ray) :
    ((s.dist2 ray < 0 ∧ 0 < s.dist1 ray) →
      s.intersect ray d0 = (decide (s.dist1 ray > eps), s.dist1 ray)) ∧
    ((¬ (s.dist1 ray < 0 ∨ s.dist2 ray < 0) ∧ ¬ (s.dist1 ray > 0 ∧ s.dist2 ray > 0)) ↔
      s.dist2 ray = 0) ∧
    (s.dist2 ray = 0 → s.intersect ray d0 = (decide (d0 > eps), d0)) := by
  have h21 := s.dist2_le_dist1 ray
  refine ⟨?_, ⟨?_, ?_⟩, ?_⟩
  · rintro ⟨h2, _⟩
    rw [s.intersect_of_val3_nonneg ray d0 h3, s.distOut_of_neg_root ray d0 (Or.inr h2),
      max_eq_left h21]
  · rintro ⟨hnoneg, hnotboth⟩
    push_neg at hnoneg
    by_contra hne
    have h2pos : 0 < s.dist2 ray := lt_of_le_of_ne hnoneg.2 (Ne.symm hne)
    exact hnotboth ⟨lt_of_lt_of_le h2pos h21, h2pos⟩
  · intro h2
    constructor
    · push_neg
      exact ⟨by linarith, by linarith⟩
    · rintro ⟨-, hb⟩
      rw [h2] at hb
      exact lt_irrefl 0 hb
  · intro h2
    rw [s.intersect_of_val3_nonneg ray d0 h3, s.distOut_of_dist2_zero ray d0 h2]

/-- Witness for C9: the unit sphere centered at the ray origin gives roots
1 and -1 (origin inside); the call assigns the exit root 1 and returns true. -/
theorem c9_witness :
    (Sphere.mk ⟨0,0,0⟩ 1).intersect ⟨⟨0,0,0⟩, ⟨0,0,-1⟩⟩ 42 = (true, 1) := by
  have hv1 : (Sphere.mk ⟨0,0,0⟩ 1).val1 ⟨⟨0,0,0⟩, ⟨0,0,-1⟩⟩ = 0 := by
    norm_num [Sphere.val1, Vec3d.dotProduct]
  have hv3 : (Sphere.mk ⟨0,0,0⟩ 1).val3 ⟨⟨0,0,0⟩, ⟨0,0,-1⟩⟩ = 1 := by
    rw [Sphere.val3_eq, hv1]
    norm_num [Vec3d.dotProduct]
  have hd1 : (Sphere.mk ⟨0,0,0⟩ 1).dist1 ⟨⟨0,0,0⟩, ⟨0,0,-1⟩⟩ = 1 := by
    unfold Sphere.dist1
    rw [hv1, hv3, Real.sqrt_one]
    norm_num
  have hd2 : (Sphere.mk ⟨0,0,0⟩ 1).dist2 ⟨⟨0,0,0⟩, ⟨0,0,-1⟩⟩ = -1 := by
    unfold Sphere.dist2
    rw [hv1, hv3, Real.sqrt_one]
    norm_num
  have h := (c9_mixed_sign_selection ⟨⟨0,0,0⟩, 1⟩ ⟨⟨0,0,0⟩, ⟨0,0,-1⟩⟩ 42
    (by rw [hv3]; norm_num)).1 ⟨by rw [hd2]; norm_num, by rw [hd1]; norm_num⟩
  rw [h, hd1, decide_eq_true (by norm_num [eps] : (1:ℝ) > eps)]

/-- C1 counterexample: for the unit sphere centered at the ray origin the two
roots are 1 and -1 (they straddle zero, origin inside the sphere), yet the
selection case `dist1 < 0 || dist2 < 0` does apply: `dist` is assigned the
positive root 1 and the call returns true, for stale caller values 42 and 0
alike — the result neither stays stale nor depends on the stale value. -/
theorem c1_counterexample :
    (Sphere.mk ⟨0,0,0⟩ 1).intersect ⟨⟨0,0,0⟩, ⟨0,0,-1⟩⟩ 17 = (true, 1) ∧
    (Sphere.mk ⟨0,0,0⟩ 1).intersect ⟨⟨0,0,0⟩, ⟨0,0,-1⟩⟩ 0 = (true, 1) := by
  have hv1 : (Sphere.mk ⟨0,0,0⟩ 1).val1 ⟨⟨0,0,0⟩, ⟨0,0,-1⟩⟩ = 0 := by
    norm_num [Sphere.val1, Vec3d.dotProduct]
  have hv3 : (Sphere.mk ⟨0,0,0⟩ 1).val3 ⟨⟨0,0,0⟩, ⟨0,0,-1⟩⟩ = 1 := by
    rw [Sphere.val3_eq, hv1]
    norm_num [Vec3d.dotProduct]
  have hd1 : (Sphere.mk ⟨0,0,0⟩ 1).dist1 ⟨⟨0,0,0⟩, ⟨0,0,-1⟩⟩ = 1 := by
    unfold Sphere.dist1
    rw [hv1, hv3, Real.sqrt_one]
    norm_num
  have hd2 : (Sphere.mk ⟨0,0,0⟩ 1).dist2 ⟨⟨0,0,0⟩, ⟨0,0,-1⟩⟩ = -1 := by
    unfold Sphere.dist2
    rw [hv1, hv3, Real.sqrt_one]
    norm_num
  have h3 : (0:ℝ) ≤ (Sphere.mk ⟨0,0,0⟩ 1).val3 ⟨⟨0,0,0⟩, ⟨0,0,-1⟩⟩ := by
    rw [hv3]
    norm_num
  have hneg : (Sphere.mk ⟨0,0,0⟩ 1).dist1 ⟨⟨0,0,0⟩, ⟨0,0,-1⟩⟩ < 0 ∨
      (Sphere.mk ⟨0,0,0⟩ 1).dist2 ⟨⟨0,0,0⟩, ⟨0,0,-1⟩⟩ < 0 := by
    right
    rw [hd2]
    norm_num
  constructor <;>
  · rw [Sphere.intersect_of_val3_nonneg _ _ _ h3, Sphere.distOut_of_neg_root _ _ _ hneg,
      hd1, hd2]
    norm_num [eps]

/-- C1 (amended): when the two roots straddle zero (ray origin inside the
sphere), the first selection case fires and `dist` is assigned the positive
exit root `max(dist1,dist2)`; the result does not depend on the caller's
previous `dist` value. (`dist` stays stale only when `dist2 = 0`, i.e. the
origin lies exactly on the sphere with no strictly negative root.) -/
theorem c1_mixed_sign_branch_assigns (s : Sphere) (ray : Ray) (d0 d0' : ℝ)
    (h3 : 0 ≤ s.val3 ray) (h2 : s.dist2 ray < 0) (h1 : 0 < s.dist1 ray) :
    (s.intersect ray d0).2 = max (s.dist1 ray) (s.dist2 ray) ∧
    s.intersect ray d0 = s.intersect ray d0' := by
  have e0 : s.intersect ray d0 =
      (decide (s.distOut ray d0 > eps), s.distOut ray d0) :=
    s.intersect_of_val3_nonneg ray d0 h3
  have e0' : s.intersect ray d0' =
      (decide (s.distOut ray d0' > eps), s.distOut ray d0') :=
    s.intersect_of_val3_nonneg ray d0' h3
  have hsel : s.distOut ray d0 = max (s.dist1 ray) (s.dist2 ray) :=
    s.distOut_of_neg_root ray d0 (Or.inr h2)
  have hsel' : s.distOut ray d0' = max (s.dist1 ray) (s.dist2 ray) :=
    s.distOut_of_neg_root ray d0' (Or.inr h2)
  refine ⟨?_, ?_⟩
  · rw [e0, hsel]
  · rw [e0, e0', hsel, hsel']

/-- Witness for the amended C1: same inside-the-sphere scenario; for stale
values 23 and 0 the call yields the same result and writes the exit root 1. -/
theorem c1_witness :
    ((Sphere.mk ⟨0,0,0⟩ 1).intersect ⟨⟨0,0,0⟩, ⟨0,0,-1⟩⟩ 23).2 = 1 ∧
    (Sphere.mk ⟨0,0,0⟩ 1).intersect ⟨⟨0,0,0⟩, ⟨0,0,-1⟩⟩ 23 =
      (Sphere.mk ⟨0,0,0⟩ 1).intersect ⟨⟨0,0,0⟩, ⟨0,0,-1⟩⟩ 0 := by
  have hv1 : (Sphere.mk ⟨0,0,0⟩ 1).val1 ⟨⟨0,0,0⟩, ⟨0,0,-1⟩⟩ = 0 := by
    norm_num [Sphere.val1, Vec3d.dotProduct]
  have hv3 : (Sphere.mk ⟨0,0,0⟩ 1).val3 ⟨⟨0,0,0⟩, ⟨0,0,-1⟩⟩ = 1 := by
    rw [Sphere.val3_eq, hv1]
    norm_num [Vec3d.dotProduct]
  have hd1 : (Sphere.mk ⟨0,0,0⟩ 1).dist1 ⟨⟨0,0,0⟩, ⟨0,0,-1⟩⟩ = 1 := by
    unfold Sphere.dist1
    rw [hv1, hv3, Real.sqrt_one]
    norm_num
  have hd2 : (Sphere.mk ⟨0,0,0⟩ 1).dist2 ⟨⟨0,0,0⟩, ⟨0,0,-1⟩⟩ = -1 := by
    unfold Sphere.dist2
    rw [hv1, hv3, Real.sqrt_one]
    norm_num
  have h := c1_mixed_sign_branch_assigns ⟨⟨0,0,0⟩, 1⟩ ⟨⟨0,0,0⟩, ⟨0,0,-1⟩⟩ 23 0
    (by rw [hv3]; norm_num) (by rw [hd2]; norm_num) (by rw [hd1]; norm_num)
  refine ⟨?_, h.2⟩
  rw [h.1, hd1, hd2]
  norm_num

/-- C2 counterexample: ray from the origin toward (0,0,-1) (unit direction)
at the sphere of radius 2 centered at (0,0,-2): the center is in front of the
ray and the discriminant is 4 ≥ 0, with roots 4 and 0. The origin lies exactly
on the sphere, the selection chain falls through, and the returned bool is the
epsilon test of the caller's stale value: true for stale 100, false for stale
0. The return value is therefore not a function of the discriminant and the
roots, refuting the claimed iff. -/
theorem c2_counterexample :
    ((Sphere.mk ⟨0,0,-2⟩ 2).intersect ⟨⟨0,0,0⟩, ⟨0,0,-1⟩⟩ 100).1 = true ∧
    ((Sphere.mk ⟨0,0,-2⟩ 2).intersect ⟨⟨0,0,0⟩, ⟨0,0,-1⟩⟩ 0).1 = false ∧
    (Vec3d.mk 0 0 (-1)).length = 1 ∧
    0 < (Vec3d.mk 0 0 (-2) - Vec3d.mk 0 0 0).dotProduct ⟨0,0,-1⟩ ∧
    (Sphere.mk ⟨0,0,-2⟩ 2).val3 ⟨⟨0,0,0⟩, ⟨0,0,-1⟩⟩ = 4 := by
  have hv1 : (Sphere.mk ⟨0,0,-2⟩ 2).val1 ⟨⟨0,0,0⟩, ⟨0,0,-1⟩⟩ = -2 := by
    norm_num [Sphere.val1, Vec3d.dotProduct]
  have hv3 : (Sphere.mk ⟨0,0,-2⟩ 2).val3 ⟨⟨0,0,0⟩, ⟨0,0,-1⟩⟩ = 4 := by
    rw [Sphere.val3_eq, hv1]
    norm_num [Vec3d.dotProduct]
  have hs4 : Real.sqrt 4 = 2 := sqrt_eq_of_mul_self 4 2 (by norm_num) (by norm_num)
  have hd2 : (Sphere.mk ⟨0,0,-2⟩ 2).dist2 ⟨⟨0,0,0⟩, ⟨0,0,-1⟩⟩ = 0 := by
    unfold Sphere.dist2
    rw [hv1, hv3, hs4]
    norm_num
  have h3 : (0:ℝ) ≤ (Sphere.mk ⟨0,0,-2⟩ 2).val3 ⟨⟨0,0,0⟩, ⟨0,0,-1⟩⟩ := by
    rw [hv3]
    norm_num
  refine ⟨?_, ?_, ?_, ?_, hv3⟩
  · rw [Sphere.intersect_of_val3_nonneg _ _ _ h3, Sphere.distOut_of_dist2_zero _ _ _ hd2]
    simp only [decide_eq_true_eq]
    norm_num [eps]
  · rw [Sphere.intersect_of_val3_nonneg _ _ _ h3, Sphere.distOut_of_dist2_zero _ _ _ hd2]
    simp only [decide_eq_false_iff_not]
    norm_num [eps]
  · unfold Vec3d.length
    rw [(by norm_num [Vec3d.dotProduct] : (Vec3d.mk 0 0 (-1)).dotProduct ⟨0,0,-1⟩ = 1)]
    exact Real.sqrt_one
  · norm_num [Vec3d.dotProduct]

/-- C2 (amended): for a ray with unit direction and a sphere of positive
radius whose center lies in front of the ray, and whose origin does not lie
exactly on the sphere, `intersect` returns true iff the discriminant is ≥ 0
and the selected root (max of the roots when one is negative, min when both
positive) exceeds epsilon; a zero discriminant (tangent ray) is not rejected. -/
theorem c2_intersect_iff_selected_root (s : Sphere) (ray : Ray) (d0 : ℝ)
    (hunit : ray.direction.length = 1)
    (hfront : 0 < (s.center - ray.origin).dotProduct ray.direction)
    (hr : 0 < s.radius)
    (hnoton : (ray.origin - s.center).length ≠ s.radius) :
    (s.intersect ray d0).1 = true ↔
      (0 ≤ s.val3 ray ∧ eps < s.specSelectedRoot ray) := by
  have hswap : (ray.origin - s.center).dotProduct ray.direction
      = -((s.center - ray.origin).dotProduct ray.direction) := by
    simp only [Vec3d.sub_def, Vec3d.dotProduct]
    ring
  have hval1 : s.val1 ray < 0 := by
    unfold Sphere.val1
    rw [hswap]
    linarith
  by_cases hv3 : s.val3 ray < 0
  · rw [s.intersect_of_val3_neg ray d0 hv3]
    simp only [Bool.false_eq_true, false_iff]
    rintro ⟨h3, -⟩
    exact absurd hv3 (not_lt.mpr h3)
  · push_neg at hv3
    have hsqnn := Real.sqrt_nonneg (s.val3 ray)
    have hd1pos : 0 < s.dist1 ray := by
      unfold Sphere.dist1
      linarith
    have hd2ne : s.dist2 ray ≠ 0 := by
      intro h0
      have hs : Real.sqrt (s.val3 ray) = -(s.val1 ray) := by
        unfold Sphere.dist2 at h0
        linarith
      have hsq : s.val3 ray = s.val1 ray * s.val1 ray := by
        have h1 : s.val3 ray = Real.sqrt (s.val3 ray) * Real.sqrt (s.val3 ray) :=
          (Real.mul_self_sqrt hv3).symm
        rw [hs] at h1
        nlinarith [h1]
      have hval2 : s.val2 ray * s.val2 ray = s.radius * s.radius := by
        have h2 := hsq
        unfold Sphere.val3 at h2
        linarith
      have hv2nn : 0 ≤ s.val2 ray := by
        unfold Sphere.val2 Vec3d.length
        exact Real.sqrt_nonneg _
      have hzero : (s.val2 ray - s.radius) * (s.val2 ray + s.radius) = 0 := by
        ring_nf
        ring_nf at hval2
        linarith
      rcases mul_eq_zero.mp hzero with hca | hcb
      · exact hnoton (by unfold Sphere.val2 at hca; linarith)
      · linarith
    have hiff : s.distOut ray d0 = s.specSelectedRoot ray := by
      rcases lt_or_gt_of_ne hd2ne with h2neg | h2pos
      · rw [s.distOut_of_neg_root ray d0 (Or.inr h2neg)]
        unfold Sphere.specSelectedRoot
        rw [if_pos (Or.inr h2neg)]
      · have hnot : ¬ (s.dist1 ray < 0 ∨ s.dist2 ray < 0) := by
          push_neg
          exact ⟨hd1pos.le, h2pos.le⟩
        rw [s.distOut_of_pos_roots ray d0 hd1pos h2pos]
        unfold Sphere.specSelectedRoot
        rw [if_neg hnot]
    rw [s.intersect_of_val3_nonneg ray d0 hv3]
    simp only [decide_eq_true_eq]
    rw [hiff]
    exact ⟨fun h => ⟨hv3, h⟩, fun h => h.2⟩

/-- Witness for the amended C2: the sphere of radius 1 at (0,0,-5), viewed
from the origin along (0,0,-1): roots 4 and 6, selected root 4 > eps, so the
call (with stale value 0, which alone would fail the epsilon test) returns
true. -/
theorem c2_witness :
    ((Sphere.mk ⟨0,0,-5⟩ 1).intersect ⟨⟨0,0,0⟩, ⟨0,0,-1⟩⟩ 0).1 = true := by
  have hv1 : (Sphere.mk ⟨0,0,-5⟩ 1).val1 ⟨⟨0,0,0⟩, ⟨0,0,-1⟩⟩ = -5 := by
    norm_num [Sphere.val1, Vec3d.dotProduct]
  have hv3 : (Sphere.mk ⟨0,0,-5⟩ 1).val3 ⟨⟨0,0,0⟩, ⟨0,0,-1⟩⟩ = 1 := by
    rw [Sphere.val3_eq, hv1]
    norm_num [Vec3d.dotProduct]
  have hd1 : (Sphere.mk ⟨0,0,-5⟩ 1).dist1 ⟨⟨0,0,0⟩, ⟨0,0,-1⟩⟩ = 6 := by
    unfold Sphere.dist1
    rw [hv1, hv3, Real.sqrt_one]
    norm_num
  have hd2 : (Sphere.mk ⟨0,0,-5⟩ 1).dist2 ⟨⟨0,0,0⟩, ⟨0,0,-1⟩⟩ = 4 := by
    unfold Sphere.dist2
    rw [hv1, hv3, Real.sqrt_one]
    norm_num
  have hunit : (Ray.mk ⟨0,0,0⟩ ⟨0,0,-1⟩).direction.length = 1 := by
    unfold Vec3d.length
    rw [(by norm_num [Vec3d.dotProduct] :
      (Ray.mk (⟨0,0,0⟩ : Vec3d) ⟨0,0,-1⟩).direction.dotProduct ⟨0,0,-1⟩ = 1)]
    exact Real.sqrt_one
  have hfront : 0 < ((Sphere.mk ⟨0,0,-5⟩ 1).center -
      (Ray.mk (⟨0,0,0⟩ : Vec3d) ⟨0,0,-1⟩).origin).dotProduct ⟨0,0,-1⟩ := by
    norm_num [Vec3d.dotProduct]
  have hnoton : ((Ray.mk (⟨0,0,0⟩ : Vec3d) ⟨0,0,-1⟩).origin -
      (Sphere.mk ⟨0,0,-5⟩ 1).center).length ≠ (Sphere.mk ⟨0,0,-5⟩ 1).radius := by
    unfold Vec3d.length
    rw [(by norm_num [Vec3d.dotProduct] :
      ((Ray.mk (⟨0,0,0⟩ : Vec3d) ⟨0,0,-1⟩).origin -
        (Sphere.mk (⟨0,0,-5⟩ : Vec3d) 1).center).dotProduct
        ((Ray.mk (⟨0,0,0⟩ : Vec3d) ⟨0,0,-1⟩).origin -
          (Sphere.mk (⟨0,0,-5⟩ : Vec3d) 1).center) = 25)]
    rw [sqrt_eq_of_mul_self 25 5 (by norm_num) (by norm_num)]
    norm_num
  have hspec : (Sphere.mk ⟨0,0,-5⟩ 1).specSelectedRoot ⟨⟨0,0,0⟩, ⟨0,0,-1⟩⟩ = 4 := by
    unfold Sphere.specSelectedRoot
    rw [if_neg (by rw [hd1, hd2]; push_neg; norm_num), hd1, hd2]
    norm_num
  exact (c2_intersect_iff_selected_root ⟨⟨0,0,-5⟩, 1⟩ ⟨⟨0,0,0⟩, ⟨0,0,-1⟩⟩ 0
    hunit hfront (by norm_num) hnoton).mpr
    ⟨by rw [hv3]; norm_num, by rw [hspec]; norm_num [eps]⟩

/-- C7: for a sphere of positive radius and a unit vector `u`,
`Sphere::getNormal` at the on-sphere point `center + u*radius` returns `u`
(the `(point - center)/radius` formula), and it agrees with
`normalize(point - center)` there. -/
theorem c7_getNormal_round_trip (s : Sphere) (u : Vec3d)
    (hu : u.length = 1) (hr : 0 < s.radius) :
    s.getNormal (s.center + u * s.radius) = u ∧
    ((s.center + u * s.radius) - s.center).normalize = u := by
  have hrne : s.radius ≠ 0 := ne_of_gt hr
  have hdotu : u.dotProduct u = 1 := by
    have h := Real.sq_sqrt (Vec3d.dotProduct_self_nonneg u)
    unfold Vec3d.length at hu
    rw [hu] at h
    simpa using h.symm
  have hsub : (s.center + u * s.radius) - s.center = u * s.radius := by
    simp only [Vec3d.add_def, Vec3d.mul_def, Vec3d.sub_def, Vec3d.mk.injEq]
    refine ⟨by ring, by ring, by ring⟩
  have hquot : (u * s.radius : Vec3d) / s.radius = u := by
    show (u * s.radius : Vec3d) / s.radius = Vec3d.mk u.x u.y u.z
    simp only [Vec3d.mul_def, Vec3d.div_def, Vec3d.mk.injEq]
    refine ⟨?_, ?_, ?_⟩ <;> field_simp
  constructor
  · unfold Sphere.getNormal
    rw [hsub, hquot]
  · rw [hsub]
    unfold Vec3d.normalize
    have hlen : (u * s.radius : Vec3d).length = s.radius := by
      unfold Vec3d.length
      have hd : (u * s.radius : Vec3d).dotProduct (u * s.radius) =
          s.radius * s.radius := by
        simp only [Vec3d.mul_def, Vec3d.dotProduct]
        unfold Vec3d.dotProduct at hdotu
        nlinarith [hdotu]
      rw [hd]
      exact Real.sqrt_mul_self hr.le
    rw [hlen, hquot]

/-- Witness for C7: the sphere of radius 2 at (1,2,3) and the unit vector
(0,0,1): the normal at (1,2,5) is (0,0,1). -/
theorem c7_witness :
    (Sphere.mk ⟨1,2,3⟩ 2).getNormal ((Vec3d.mk 1 2 3) + (Vec3d.mk 0 0 1) * (2:ℝ)) =
      ⟨0,0,1⟩ ∧
    (Vec3d.mk 0 0 1).length = 1 := by
  have hu : (Vec3d.mk 0 0 1).length = 1 := by
    unfold Vec3d.length
    rw [(by norm_num [Vec3d.dotProduct] : (Vec3d.mk 0 0 1).dotProduct ⟨0,0,1⟩ = 1)]
    exact Real.sqrt_one
  have h := c7_getNormal_round_trip ⟨⟨1,2,3⟩, 2⟩ ⟨0,0,1⟩ hu (by norm_num)
  exact ⟨h.1, hu⟩

/-- C8: `Vec3d::normalize` divides each component by the vector's length (so
a zero-length vector leads straight into a division by zero — the zero vector
has length 0, third conjunct); under the precondition `length ≠ 0`, the
normalized vector has length 1. -/
theorem c8_normalize_div_by_length (v : Vec3d) (h : v.length ≠ 0) :
    v.normalize = ⟨v.x / v.length, v.y / v.length, v.z / v.length⟩ ∧
    v.normalize.length = 1 ∧
    (Vec3d.mk 0 0 0).length = 0 := by
  refine ⟨rfl, ?_, ?_⟩
  · have hnn := Vec3d.dotProduct_self_nonneg v
    have hdot : v.dotProduct v = v.length * v.length := (Real.mul_self_sqrt hnn).symm
    have hd2 : (v.normalize).dotProduct (v.normalize) = 1 := by
      unfold Vec3d.normalize
      simp only [Vec3d.div_def, Vec3d.dotProduct]
      unfold Vec3d.dotProduct at hdot
      field_simp
      nlinarith [hdot]
    unfold Vec3d.length
    rw [hd2]
    exact Real.sqrt_one
  · unfold Vec3d.length
    rw [(by norm_num [Vec3d.dotProduct] : (Vec3d.mk 0 0 0).dotProduct ⟨0,0,0⟩ = 0)]
    exact Real.sqrt_zero

/-- Witness for C8: the vector (0,0,2) has length 2 ≠ 0 and normalizes to a
unit-length vector. -/
theorem c8_witness :
    (Vec3d.mk 0 0 2).normalize.length = 1 ∧ (Vec3d.mk 0 0 2).length = 2 := by
  have hlen : (Vec3d.mk 0 0 2).length = 2 := by
    unfold Vec3d.length
    rw [(by norm_num [Vec3d.dotProduct] : (Vec3d.mk 0 0 2).dotProduct ⟨0,0,2⟩ = 4)]
    exact sqrt_eq_of_mul_self 4 2 (by norm_num) (by norm_num)
  have h := c8_normalize_div_by_length ⟨0,0,2⟩ (by rw [hlen]; norm_num)
  exact ⟨h.2.1, hlen⟩

/-- C4: in the shading loop, an unoccluded light contributes
`scolor * l.color * dot(n, lv)` to the pixel color with no clamping of the
dot product: when the dot product is negative (back-facing light) the added
red component is nonpositive, so the pixel is darkened — strictly whenever
the tints are strictly positive. -/
theorem c4_backfacing_light_darkens (objects : List Sphere) (scolor : Color)
    (pintersect n : Vec3d) (l : Light) (ls : List Light) (px : Color) (tmp : ℝ)
    (hnoshadow :
      (anyHit ⟨pintersect, (l.pos - pintersect).normalize⟩ objects tmp).1 = false)
    (hneg : n.dotProduct ((l.pos - pintersect).normalize) < 0)
    (hs : 0 ≤ scolor.r) (hl : 0 ≤ l.color.r) :
    shadeLights objects scolor pintersect n (l :: ls) px tmp =
      shadeLights objects scolor pintersect n ls
        (px + scolor * l.color * (n.dotProduct ((l.pos - pintersect).normalize)))
        (anyHit ⟨pintersect, (l.pos - pintersect).normalize⟩ objects tmp).2 ∧
    (px + scolor * l.color * (n.dotProduct ((l.pos - pintersect).normalize))).r ≤
      px.r ∧
    (0 < scolor.r * l.color.r →
      (px + scolor * l.color *
        (n.dotProduct ((l.pos - pintersect).normalize))).r < px.r) := by
  refine ⟨?_, ?_, ?_⟩
  · simp only [shadeLights, hnoshadow, Bool.false_eq_true, if_false]
  · have hc : scolor.r * l.color.r * (n.dotProduct ((l.pos - pintersect).normalize)) ≤ 0 :=
      mul_nonpos_of_nonneg_of_nonpos (mul_nonneg hs hl) hneg.le
    simp only [Color.smul_def, Color.mul_color_def, Color.add_color_def]
    linarith
  · intro hpos
    have hc : scolor.r * l.color.r * (n.dotProduct ((l.pos - pintersect).normalize)) < 0 :=
      mul_neg_of_pos_of_neg hpos hneg
    simp only [Color.smul_def, Color.mul_color_def, Color.add_color_def]
    linarith

/-- Witness for C4: with no occluders, surface tint red, light tint white and
a light at (0,0,-4) behind the (0,0,1)-normal surface point at the origin, the
diffuse factor is -1 and the red channel of the pixel drops from 0.5 to -0.5. -/
theorem c4_witness :
    (Color.mk 0.5 0.5 0.5 + Color.red * Color.white *
      ((Vec3d.mk 0 0 1).dotProduct ((Vec3d.mk 0 0 (-4) - Vec3d.mk 0 0 0).normalize))).r <
      (Color.mk 0.5 0.5 0.5).r ∧
    shadeLights [] Color.red ⟨0,0,0⟩ ⟨0,0,1⟩ [⟨⟨0,0,-4⟩, Color.white⟩] ⟨0.5,0.5,0.5⟩ 0 =
      shadeLights [] Color.red ⟨0,0,0⟩ ⟨0,0,1⟩ []
        (⟨0.5,0.5,0.5⟩ + Color.red * Color.white *
          ((Vec3d.mk 0 0 1).dotProduct ((Vec3d.mk 0 0 (-4) - Vec3d.mk 0 0 0).normalize))) 0 := by
  have hlen : (Vec3d.mk 0 0 (-4)).length = 4 := by
    unfold Vec3d.length
    rw [(by norm_num [Vec3d.dotProduct] : (Vec3d.mk 0 0 (-4)).dotProduct ⟨0,0,-4⟩ = 16)]
    exact sqrt_eq_of_mul_self 16 4 (by norm_num) (by norm_num)
  have hsub4 : (Vec3d.mk 0 0 (-4) - Vec3d.mk 0 0 0) = Vec3d.mk 0 0 (-4) := by
    simp only [Vec3d.sub_def, Vec3d.mk.injEq]
    norm_num
  have hnorm : (Vec3d.mk 0 0 (-4) - Vec3d.mk 0 0 0).normalize = ⟨0,0,-1⟩ := by
    rw [hsub4]
    unfold Vec3d.normalize
    rw [hlen]
    simp only [Vec3d.div_def, Vec3d.mk.injEq]
    norm_num
  have hdot : (Vec3d.mk 0 0 1).dotProduct
      ((Vec3d.mk 0 0 (-4) - Vec3d.mk 0 0 0).normalize) = -1 := by
    rw [hnorm]
    norm_num [Vec3d.dotProduct]
  have h := c4_backfacing_light_darkens [] Color.red ⟨0,0,0⟩ ⟨0,0,1⟩
    ⟨⟨0,0,-4⟩, Color.white⟩ [] ⟨0.5,0.5,0.5⟩ 0 rfl
    (by
      show (Vec3d.mk 0 0 1).dotProduct ((Vec3d.mk 0 0 (-4) - Vec3d.mk 0 0 0).normalize) < 0
      rw [hdot]
      norm_num)
    (by norm_num [Color.red]) (by norm_num [Color.white])
  exact ⟨h.2.2 (by norm_num [Color.red, Color.white]), h.1⟩

/-- If every object reports no hit on `ray` (for every stale distance), the
nearest-hit loop keeps its running object and best distance unchanged. -/
theorem nearestHit_keeps_of_no_hit (r : Ray) (objects : List Sphere)
    (h : ∀ o ∈ objects, ∀ d, (o.intersect r d).1 = false) :
    ∀ curo dist tmp, (nearestHit r objects curo dist tmp).1 = curo ∧
      (nearestHit r objects curo dist tmp).2.1 = dist := by
  induction objects with
  | nil =>
    intro curo dist tmp
    exact ⟨rfl, rfl⟩
  | cons o os ih =>
    intro curo dist tmp
    have ho := h o (List.mem_cons_self o os)
    have hrest : ∀ o2 ∈ os, ∀ d, (o2.intersect r d).1 = false :=
      fun o2 hm => h o2 (List.mem_cons_of_mem o hm)
    have hcond : ¬ ((o.intersect r tmp).1 = true ∧ (o.intersect r tmp).2 < dist) := by
      rintro ⟨hb, -⟩
      rw [ho tmp] at hb
      exact Bool.false_ne_true hb
    simp only [nearestHit]
    rw [if_neg hcond]
    exact ih hrest curo dist _

/-- C5: for a primary ray that intersects no object, the per-pixel pipeline
stores exactly the configured background color — no clamping and no ambient
term is applied to it. -/
theorem c5_background_on_miss (objects : List Sphere) (lights : List Light)
    (background scolor : Color) (ray : Ray) (d0 : ℝ)
    (h : ∀ o ∈ objects, ∀ d, (o.intersect ray d).1 = false) :
    (renderPixel objects lights background scolor ray d0).1 = background := by
  have hnh := nearestHit_keeps_of_no_hit ray objects h none DBL_MAX d0
  rcases hEq : nearestHit ray objects none DBL_MAX d0 with ⟨curo, dist, tmp⟩
  rw [hEq] at hnh
  have hcur : curo = none := hnh.1
  subst hcur
  unfold renderPixel
  rw [hEq]

/-- Witness for C5: the sphere at (0,0,5) is behind the ray from the origin
toward (0,0,-1); the pixel gets the background color (0,0.5,0.5), unclamped
and with no ambient term. -/
theorem c5_witness :
    (renderPixel [⟨⟨0,0,5⟩, 1⟩] [] ⟨0, 0.5, 0.5⟩ Color.red ⟨⟨0,0,0⟩, ⟨0,0,-1⟩⟩ 0).1 =
      ⟨0, 0.5, 0.5⟩ := by
  have hv1 : (Sphere.mk ⟨0,0,5⟩ 1).val1 ⟨⟨0,0,0⟩, ⟨0,0,-1⟩⟩ = 5 := by
    norm_num [Sphere.val1, Vec3d.dotProduct]
  have hv3 : (Sphere.mk ⟨0,0,5⟩ 1).val3 ⟨⟨0,0,0⟩, ⟨0,0,-1⟩⟩ = 1 := by
    rw [Sphere.val3_eq, hv1]
    norm_num [Vec3d.dotProduct]
  have hd1 : (Sphere.mk ⟨0,0,5⟩ 1).dist1 ⟨⟨0,0,0⟩, ⟨0,0,-1⟩⟩ = -4 := by
    unfold Sphere.dist1
    rw [hv1, hv3, Real.sqrt_one]
    norm_num
  have hd2 : (Sphere.mk ⟨0,0,5⟩ 1).dist2 ⟨⟨0,0,0⟩, ⟨0,0,-1⟩⟩ = -6 := by
    unfold Sphere.dist2
    rw [hv1, hv3, Real.sqrt_one]
    norm_num
  have hfalse : ∀ d, ((Sphere.mk ⟨0,0,5⟩ 1).intersect ⟨⟨0,0,0⟩, ⟨0,0,-1⟩⟩ d).1 = false := by
    intro d
    rw [Sphere.intersect_of_val3_nonneg _ _ _ (by rw [hv3]; norm_num),
      Sphere.distOut_of_neg_root _ _ _ (Or.inl (by rw [hd1]; norm_num))]
    simp only [decide_eq_false_iff_not]
    rw [hd1, hd2, (max_eq_left (by norm_num) : max (-4 : ℝ) (-6) = -4)]
    norm_num [eps]
  exact c5_background_on_miss _ _ _ _ _ _ (by
    intro o hm d
    rcases List.mem_singleton.mp hm with rfl
    exact hfalse d)

/-- C6: for a primary ray whose nearest-hit search finds an object, the final
stored color is: the per-light accumulated color clamped to [0,1], plus the
ambient term `scolor * 0.1`, clamped to [0,1] again — in exactly that order. -/
theorem c6_hit_pipeline (objects : List Sphere) (lights : List Light)
    (background scolor : Color) (ray : Ray) (d0 : ℝ) (o : Sphere) (dist tmp : ℝ)
    (h : nearestHit ray objects none DBL_MAX d0 = (some o, dist, tmp)) :
    (renderPixel objects lights background scolor ray d0).1 =
      (((shadeLights objects scolor (ray.getPoint dist)
          (o.getNormal (ray.getPoint dist)) lights Color.black tmp).1.clamp 0 1) +
        scolor * (0.1 : ℝ)).clamp 0 1 := by
  unfold renderPixel
  rw [h]

/-- Witness for C6: a single sphere at (0,0,-5) hit at distance 4 with no
lights: the accumulated color is black, clamped to black, plus the ambient
red tint 0.1, clamped again, giving (0.1, 0, 0). -/
theorem c6_witness :
    (renderPixel [⟨⟨0,0,-5⟩, 1⟩] [] ⟨0, 0.5, 0.5⟩ Color.red ⟨⟨0,0,0⟩, ⟨0,0,-1⟩⟩ 0).1 =
      ⟨0.1, 0, 0⟩ := by
  have hv1 : (Sphere.mk ⟨0,0,-5⟩ 1).val1 ⟨⟨0,0,0⟩, ⟨0,0,-1⟩⟩ = -5 := by
    norm_num [Sphere.val1, Vec3d.dotProduct]
  have hv3 : (Sphere.mk ⟨0,0,-5⟩ 1).val3 ⟨⟨0,0,0⟩, ⟨0,0,-1⟩⟩ = 1 := by
    rw [Sphere.val3_eq, hv1]
    norm_num [Vec3d.dotProduct]
  have hd1 : (Sphere.mk ⟨0,0,-5⟩ 1).dist1 ⟨⟨0,0,0⟩, ⟨0,0,-1⟩⟩ = 6 := by
    unfold Sphere.dist1
    rw [hv1, hv3, Real.sqrt_one]
    norm_num
  have hd2 : (Sphere.mk ⟨0,0,-5⟩ 1).dist2 ⟨⟨0,0,0⟩, ⟨0,0,-1⟩⟩ = 4 := by
    unfold Sphere.dist2
    rw [hv1, hv3, Real.sqrt_one]
    norm_num
  have hint : (Sphere.mk ⟨0,0,-5⟩ 1).intersect ⟨⟨0,0,0⟩, ⟨0,0,-1⟩⟩ 0 = (true, 4) := by
    rw [Sphere.intersect_of_val3_nonneg _ _ _ (by rw [hv3]; norm_num),
      Sphere.distOut_of_pos_roots _ _ _ (by rw [hd1]; norm_num) (by rw [hd2]; norm_num),
      hd1, hd2, (min_eq_right (by norm_num) : min (6 : ℝ) 4 = 4)]
    rw [decide_eq_true (by norm_num [eps] : (4:ℝ) > eps)]
  have hnh : nearestHit ⟨⟨0,0,0⟩, ⟨0,0,-1⟩⟩ [⟨⟨0,0,-5⟩, 1⟩] none DBL_MAX 0 =
      (some ⟨⟨0,0,-5⟩, 1⟩, 4, 4) := by
    simp only [nearestHit, hint]
    rw [if_pos ⟨trivial, by unfold DBL_MAX; norm_num⟩]
  have h := c6_hit_pipeline [⟨⟨0,0,-5⟩, 1⟩] [] ⟨0, 0.5, 0.5⟩ Color.red
    ⟨⟨0,0,0⟩, ⟨0,0,-1⟩⟩ 0 ⟨⟨0,0,-5⟩, 1⟩ 4 4 hnh
  rw [h]
  simp only [shadeLights]
  norm_num [Color.clamp, clamp, Color.black, Color.red, Color.mk.injEq]

/-- C10: the shadow test marks a light occluded as soon as any object's
`intersect` returns true on the shadow ray; the light's own distance from the
hit point never enters the computation, so an object entirely beyond the light
still blocks it. -/
theorem c10_occlusion_ignores_light_distance (objects : List Sphere)
    (p lpos : Vec3d) (o : Sphere) (d0 : ℝ) (hmem : o ∈ objects)
    (hhits : ∀ d, (o.intersect ⟨p, (lpos - p).normalize⟩ d).1 = true) :
    (inShadowCheck objects p lpos d0).1 = true := by
  unfold inShadowCheck
  induction objects generalizing d0 with
  | nil => cases hmem
  | cons o2 os ih =>
    simp only [anyHit]
    by_cases hcase : ((o2.intersect ⟨p, (lpos - p).normalize⟩ d0).1 = true)
    · rw [if_pos hcase]
    · rw [if_neg hcase]
      rcases List.mem_cons.mp hmem with heq | hm
      · subst heq
        exact absurd (hhits d0) hcase
      · exact ih _ hm

/-- Witness for C10: the hit point is the origin, the light sits at (0,0,3)
(distance 3), and the only object is a sphere at (0,0,10) hit by the shadow
ray at distance 9 — beyond the light — yet the light is reported occluded. -/
theorem c10_witness :
    (inShadowCheck [⟨⟨0,0,10⟩, 1⟩] ⟨0,0,0⟩ ⟨0,0,3⟩ 0).1 = true ∧
    (Vec3d.mk 0 0 3 - Vec3d.mk 0 0 0).length = 3 ∧
    ((Sphere.mk ⟨0,0,10⟩ 1).intersect ⟨⟨0,0,0⟩, ⟨0,0,1⟩⟩ 0).2 = 9 := by
  have hsub3 : (Vec3d.mk 0 0 3 - Vec3d.mk 0 0 0) = Vec3d.mk 0 0 3 := by
    simp only [Vec3d.sub_def, Vec3d.mk.injEq]
    norm_num
  have hlen3 : (Vec3d.mk 0 0 3).length = 3 := by
    unfold Vec3d.length
    rw [(by norm_num [Vec3d.dotProduct] : (Vec3d.mk 0 0 3).dotProduct ⟨0,0,3⟩ = 9)]
    exact sqrt_eq_of_mul_self 9 3 (by norm_num) (by norm_num)
  have hnorm : (Vec3d.mk 0 0 3 - Vec3d.mk 0 0 0).normalize = ⟨0,0,1⟩ := by
    rw [hsub3]
    unfold Vec3d.normalize
    rw [hlen3]
    simp only [Vec3d.div_def, Vec3d.mk.injEq]
    norm_num
  have hv1 : (Sphere.mk ⟨0,0,10⟩ 1).val1 ⟨⟨0,0,0⟩, ⟨0,0,1⟩⟩ = -10 := by
    norm_num [Sphere.val1, Vec3d.dotProduct]
  have hv3 : (Sphere.mk ⟨0,0,10⟩ 1).val3 ⟨⟨0,0,0⟩, ⟨0,0,1⟩⟩ = 1 := by
    rw [Sphere.val3_eq, hv1]
    norm_num [Vec3d.dotProduct]
  have hd1 : (Sphere.mk ⟨0,0,10⟩ 1).dist1 ⟨⟨0,0,0⟩, ⟨0,0,1⟩⟩ = 11 := by
    unfold Sphere.dist1
    rw [hv1, hv3, Real.sqrt_one]
    norm_num
  have hd2 : (Sphere.mk ⟨0,0,10⟩ 1).dist2 ⟨⟨0,0,0⟩, ⟨0,0,1⟩⟩ = 9 := by
    unfold Sphere.dist2
    rw [hv1, hv3, Real.sqrt_one]
    norm_num
  have hint : ∀ d, (Sphere.mk ⟨0,0,10⟩ 1).intersect ⟨⟨0,0,0⟩, ⟨0,0,1⟩⟩ d = (true, 9) := by
    intro d
    rw [Sphere.intersect_of_val3_nonneg _ _ _ (by rw [hv3]; norm_num),
      Sphere.distOut_of_pos_roots _ _ _ (by rw [hd1]; norm_num) (by rw [hd2]; norm_num),
      hd1, hd2, (min_eq_right (by norm_num) : min (11 : ℝ) 9 = 9)]
    rw [decide_eq_true (by norm_num [eps] : (9:ℝ) > eps)]
  refine ⟨?_, by rw [hsub3]; exact hlen3, by rw [hint 0]⟩
  exact c10_occlusion_ignores_light_distance [⟨⟨0,0,10⟩, 1⟩] ⟨0,0,0⟩ ⟨0,0,3⟩
    ⟨⟨0,0,10⟩, 1⟩ 0 (List.mem_singleton.mpr rfl)
    (by
      intro d
      show ((Sphere.mk ⟨0,0,10⟩ 1).intersect
        ⟨⟨0,0,0⟩, (Vec3d.mk 0 0 3 - Vec3d.mk 0 0 0).normalize⟩ d).1 = true
      rw [hnorm, hint d])

end Raytracer
